import Mathlib

/-!
# Shallow embedding of the Codex access-control engine

This file embeds `codex/services/accessControlService.js` (the Authorization
Engine of the Codex document-management system) in Lean 4 and proves the
specified properties of its operations.

Modelling conventions:
* The Mongo `Acl` collection is an ordered list of records (`DB.acls`);
  `find` returns the matching records in store order, `findOne` is a
  truthiness test (`List.any`), `updateMany` maps over the list and reports
  how many documents it changed.
* Mongo ObjectId values are `Nat`.  A record's `expiresAt` field is
  `Option Nat` (`none` = no expiry); timestamps are `Nat` and the current
  time is passed explicitly as `now`, so `expiresAt: { $gt: new Date() }`
  becomes `now < t`.
* JavaScript's `new Set` compares ObjectId *objects* by reference, not by
  hex value.  Each record extracted by a query is a distinct object, so we
  tag every extracted resourceId with the store position of the record it
  came from and deduplicate the (position, value) pairs (`jsSetDedup`).
-/

/-- The four permission values of the `PERMISSIONS` constant. -/
inductive Permission : Type
  | read
  | write
  | delete
  | admin
deriving DecidableEq, Repr

/-- A document of the `Acl` collection (`models/Acl.js` schema). -/
structure Acl : Type where
  resourceType : String
  resourceId : Nat
  granteeType : String
  granteeId : Option Nat
  granteeName : Option String
  permission : Permission
  grantedBy : Nat
  grantedAt : Nat
  expiresAt : Option Nat
  active : Bool
deriving DecidableEq, Repr

/-- A document of the `User` collection (`models/User.js` schema): the fields
the engine reads (`_id` and the LDAP `groups` array). -/
structure User : Type where
  id : Nat
  username : String
  groups : List String
deriving DecidableEq, Repr

/-- The durable state the engine operates on: the Acl ledger and the user
directory. -/
structure DB : Type where
  acls : List Acl
  users : List User
deriving DecidableEq, Repr

/-- `User.findById`. -/
def findUser (users : List User) (userId : Nat) : Option User :=
  users.find? (fun u => u.id == userId)

/-- The group set of a principal as the engine sees it: `user.groups` when the
user resolves, empty otherwise. -/
def userGroups (db : DB) (userId : Nat) : List String :=
  match findUser db.users userId with
  | some u => u.groups
  | none => []

/-- The `$or: [{expiresAt: {$exists: false}}, {expiresAt: {$gt: new Date()}}]`
clause every read query carries. -/
def expiresOk (now : Nat) (e : Option Nat) : Bool :=
  match e with
  | none => true
  | some t => decide (now < t)

/-- `active: true` together with the expiry clause. -/
def aclLive (now : Nat) (a : Acl) : Bool :=
  a.active && expiresOk now a.expiresAt

/-- The `resourceType`/`resourceId` part of the per-resource queries. -/
def matchesRes (rt : String) (rid : Nat) (a : Acl) : Bool :=
  a.resourceType == rt && a.resourceId == rid

/-- `getPermissionHierarchy` from `accessControlService.js`, verbatim: the
constant lookup table the service uses in `getUserAccessibleResources`. -/
def getPermissionHierarchy : Permission → List Permission
  | .admin => [.admin, .delete, .write, .read]
  | .delete => [.delete, .write, .read]
  | .write => [.write, .read]
  | .read => [.read]

/-- `hasPermission(userId, resourceType, resourceId, permission)`.  The four
sequential early-return `findOne` checks become a boolean disjunction:
direct user grant of `admin`, direct user grant of the exact requested
permission, group grant of the exact requested permission (only when the user
resolves and has a non-empty group list), public grant of the exact requested
permission. -/
def hasPermission (db : DB) (now : Nat) (userId : Nat) (rt : String) (rid : Nat)
    (perm : Permission) : Bool :=
  (db.acls.any fun a =>
    matchesRes rt rid a && a.granteeType == "user" && a.granteeId == some userId &&
      a.permission == Permission.admin && aclLive now a) ||
  (db.acls.any fun a =>
    matchesRes rt rid a && a.granteeType == "user" && a.granteeId == some userId &&
      a.permission == perm && aclLive now a) ||
  (!(userGroups db userId).isEmpty &&
    db.acls.any fun a =>
      matchesRes rt rid a && a.granteeType == "group" &&
        a.granteeName.any (fun n => (userGroups db userId).contains n) &&
        a.permission == perm && aclLive now a) ||
  (db.acls.any fun a =>
    matchesRes rt rid a && a.granteeType == "public" &&
      a.permission == perm && aclLive now a)

/-- JavaScript `Set` iteration semantics: keep the first occurrence of each
element, drop later duplicates. -/
def jsSetDedupAux {α : Type} [DecidableEq α] (seen : List α) : List α → List α
  | [] => []
  | x :: xs =>
    if x ∈ seen then jsSetDedupAux seen xs
    else x :: jsSetDedupAux (x :: seen) xs

/-- `[...new Set(l)]`. -/
def jsSetDedup {α : Type} [DecidableEq α] (l : List α) : List α :=
  jsSetDedupAux [] l

/-- The `Acl.find` of one branch of `getUserAccessibleResources`, keeping the
store position of each matching record, mapped to `acl.resourceId`.  The
position stands for the object identity of the hydrated document: distinct
documents are distinct ObjectId objects even when their values coincide. -/
def taggedIds (db : DB) (p : Acl → Bool) : List (Nat × Nat) :=
  ((db.acls.enum.filter fun x => p x.2).map fun x => (x.1, x.2.resourceId))

/-- `getUserAccessibleResources(userId, resourceType, permission)`: the three
`find` queries (direct, group, public), each filtered to
`permission: { $in: getPermissionHierarchy(permission) }` and live records,
concatenated in source order and passed through `[...new Set(...)]`. -/
def getUserAccessibleResources (db : DB) (now : Nat) (userId : Nat) (rt : String)
    (perm : Permission) : List Nat :=
  let hier := getPermissionHierarchy perm
  let directIds := taggedIds db fun a =>
    a.resourceType == rt && a.granteeType == "user" && a.granteeId == some userId &&
      hier.contains a.permission && aclLive now a
  let groupIds :=
    if (userGroups db userId).isEmpty then []
    else taggedIds db fun a =>
      a.resourceType == rt && a.granteeType == "group" &&
        a.granteeName.any (fun n => (userGroups db userId).contains n) &&
        hier.contains a.permission && aclLive now a
  let publicIds := taggedIds db fun a =>
    a.resourceType == rt && a.granteeType == "public" &&
      hier.contains a.permission && aclLive now a
  (jsSetDedup (directIds ++ groupIds ++ publicIds)).map Prod.snd

/-- The errors `grantPermission` throws:
`Invalid permission: ${permission}` and `User not found: ${granteeId}`. -/
inductive GrantError : Type
  | validationError (permission : String)
  | notFoundError (granteeId : Nat)
deriving DecidableEq, Repr

/-- `Object.values(PERMISSIONS).includes(permission)` as a parse of the raw
string argument. -/
def parsePermission (s : String) : Option Permission :=
  if s == "read" then some .read
  else if s == "write" then some .write
  else if s == "delete" then some .delete
  else if s == "admin" then some .admin
  else none

/-- The `new Acl({...})` document built by `grantPermission`: the argument
fields, `grantedAt` defaulted to the call time and `active` defaulted to
`true` by the schema. -/
def mkGrant (now : Nat) (rt : String) (rid : Nat) (gt : String) (gid : Option Nat)
    (gname : Option String) (p : Permission) (grantedById : Nat)
    (expiresAt : Option Nat) : Acl :=
  { resourceType := rt, resourceId := rid, granteeType := gt, granteeId := gid,
    granteeName := gname, permission := p, grantedBy := grantedById,
    grantedAt := now, expiresAt := expiresAt, active := true }

/-- `grantPermission(resourceType, resourceId, granteeType, granteeId,
granteeName, permission, grantedById, expiresAt)`.  Validates the permission
string, then (only when `granteeType === 'user' && granteeId` is truthy)
checks the grantee user exists, then unconditionally inserts a fresh record.
The returned pair carries the store after the call: on an error the store is
unchanged. -/
def grantPermission (db : DB) (now : Nat) (rt : String) (rid : Nat) (gt : String)
    (gid : Option Nat) (gname : Option String) (perm : String) (grantedById : Nat)
    (expiresAt : Option Nat) : DB × Except GrantError Acl :=
  match parsePermission perm with
  | none => (db, .error (.validationError perm))
  | some p =>
    if gt == "user" && gid.isSome && (findUser db.users (gid.getD 0)).isNone then
      (db, .error (.notFoundError (gid.getD 0)))
    else
      ({ db with acls := db.acls ++ [mkGrant now rt rid gt gid gname p grantedById expiresAt] },
       .ok (mkGrant now rt rid gt gid gname p grantedById expiresAt))

/-- The `updateMany` filter of `revokePermission`: the full grantee tuple plus
`active: true`.  It carries no `granteeName` and no expiry clause. -/
def revokeMatches (rt : String) (rid : Nat) (gt : String) (gid : Option Nat)
    (p : Permission) (a : Acl) : Bool :=
  a.resourceType == rt && a.resourceId == rid && a.granteeType == gt &&
    a.granteeId == gid && a.permission == p && a.active

/-- The `{ active: false }` update applied to each matched document. -/
def deactivate (a : Acl) : Acl :=
  { a with active := false }

/-- `revokePermission(resourceType, resourceId, granteeType, granteeId,
permission)`: `updateMany` over the ledger, returning the new store and
`modifiedCount` (every matched document has `active: true` and is set to
`false`, so matched = modified). -/
def revokePermission (db : DB) (rt : String) (rid : Nat) (gt : String)
    (gid : Option Nat) (p : Permission) : DB × Nat :=
  ({ db with
      acls := db.acls.map fun a =>
        if revokeMatches rt rid gt gid p a then deactivate a else a },
   (db.acls.filter (revokeMatches rt rid gt gid p)).length)

/-- `getResourcePermissions(resourceType, resourceId)`: the live grants of the
resource in store order, each paired with the `populate('grantedBy', ...)`
resolution of its grantor.  The function issues no write. -/
def getResourcePermissions (db : DB) (now : Nat) (rt : String) (rid : Nat) :
    List (Acl × Option User) :=
  (db.acls.filter fun a => matchesRes rt rid a && aclLive now a).map
    fun a => (a, findUser db.users a.grantedBy)

/-- A deactivated record never matches the revoke filter again, whatever the
tuple: the filter requires `active: true`. -/
theorem revokeMatches_deactivate (rt : String) (rid : Nat) (gt : String)
    (gid : Option Nat) (p : Permission) (a : Acl) :
    revokeMatches rt rid gt gid p (deactivate a) = false := by
  simp [revokeMatches, deactivate]

/-- After one `revokePermission` call, no record of the store matches the same
filter any more. -/
theorem revoke_clears (db : DB) (rt : String) (rid : Nat) (gt : String)
    (gid : Option Nat) (p : Permission) :
    ∀ a ∈ (revokePermission db rt rid gt gid p).1.acls,
      revokeMatches rt rid gt gid p a = false := by
  intro a ha
  simp only [revokePermission, List.mem_map] at ha
  obtain ⟨b, hb, rfl⟩ := ha
  by_cases h : revokeMatches rt rid gt gid p b = true
  · simp [h, revokeMatches_deactivate]
  · simp only [Bool.not_eq_true] at h
    simp [h]

/-- Mapping the conditional-deactivation step over a store in which nothing
matches is the identity. -/
theorem map_revoke_nomatch (rt : String) (rid : Nat) (gt : String)
    (gid : Option Nat) (p : Permission) (l : List Acl)
    (h : ∀ a ∈ l, revokeMatches rt rid gt gid p a = false) :
    (l.map fun a => if revokeMatches rt rid gt gid p a then deactivate a else a) = l := by
  induction l with
  | nil => rfl
  | cons x xs ih =>
    have hx := h x (by simp)
    simp [hx, ih fun a ha => h a (by simp [ha])]

/-- C4: revoke deactivates every currently-active record matching the full
tuple (not just the most recent one) and returns the number of matched
records; an immediately repeated identical call matches zero records, returns
0 and leaves the store unchanged, so two consecutive identical calls return
(N, 0).  The model raises no error on the second call: `revokePermission` is
total. -/
theorem revoke_bulk_and_idempotent (db : DB) (rt : String) (rid : Nat)
    (gt : String) (gid : Option Nat) (p : Permission) :
    (∀ a ∈ db.acls, revokeMatches rt rid gt gid p a = true →
        deactivate a ∈ (revokePermission db rt rid gt gid p).1.acls)
    ∧ (revokePermission db rt rid gt gid p).2
        = (db.acls.filter (revokeMatches rt rid gt gid p)).length
    ∧ (revokePermission (revokePermission db rt rid gt gid p).1 rt rid gt gid p).2 = 0
    ∧ (revokePermission (revokePermission db rt rid gt gid p).1 rt rid gt gid p).1
        = (revokePermission db rt rid gt gid p).1 := by
  refine ⟨?_, rfl, ?_, ?_⟩
  · intro a ha hm
    simp only [revokePermission, List.mem_map]
    exact ⟨a, ha, by simp [hm]⟩
  · have h := revoke_clears db rt rid gt gid p
    simp only [revokePermission]
    rw [List.filter_eq_nil_iff.mpr]
    · rfl
    · intro a ha
      simp [h a ha]
  · have h := revoke_clears db rt rid gt gid p
    simp only [revokePermission] at h ⊢
    rw [map_revoke_nomatch rt rid gt gid p _ h]

/-- Closed instance of C4: two identical admin grants to user 1 on document 5
are both deactivated by one call; the repeated call affects nothing. -/
theorem revoke_bulk_and_idempotent_witness :
    deactivate ⟨"document", 5, "user", some 1, none, .admin, 9, 0, none, true⟩
      ∈ (revokePermission
          ⟨[⟨"document", 5, "user", some 1, none, .admin, 9, 0, none, true⟩,
            ⟨"document", 5, "user", some 1, none, .admin, 9, 1, none, true⟩], []⟩
          "document" 5 "user" (some 1) .admin).1.acls
    ∧ (revokePermission (revokePermission
          ⟨[⟨"document", 5, "user", some 1, none, .admin, 9, 0, none, true⟩,
            ⟨"document", 5, "user", some 1, none, .admin, 9, 1, none, true⟩], []⟩
          "document" 5 "user" (some 1) .admin).1
          "document" 5 "user" (some 1) .admin).2 = 0 :=
  ⟨(revoke_bulk_and_idempotent
      ⟨[⟨"document", 5, "user", some 1, none, .admin, 9, 0, none, true⟩,
        ⟨"document", 5, "user", some 1, none, .admin, 9, 1, none, true⟩], []⟩
      "document" 5 "user" (some 1) .admin).1
      ⟨"document", 5, "user", some 1, none, .admin, 9, 0, none, true⟩
      (by decide) (by decide),
   (revoke_bulk_and_idempotent
      ⟨[⟨"document", 5, "user", some 1, none, .admin, 9, 0, none, true⟩,
        ⟨"document", 5, "user", some 1, none, .admin, 9, 1, none, true⟩], []⟩
      "document" 5 "user" (some 1) .admin).2.2.1⟩

/-- C10: a revoke call with granteeKind 'group' and no granteeId deactivates
every currently-active group grant of that permission on the resource
regardless of granteeName: after the call no active group grant with any
particular granteeName survives, and the affected count is computed by a
filter that never consults granteeName. -/
theorem revoke_group_ignores_granteeName (db : DB) (rt : String) (rid : Nat)
    (p : Permission) (gname : Option String) :
    ((revokePermission db rt rid "group" none p).1.acls.filter fun a =>
        a.granteeName == gname && revokeMatches rt rid "group" none p a) = []
    ∧ (revokePermission db rt rid "group" none p).2
        = (db.acls.filter (revokeMatches rt rid "group" none p)).length := by
  refine ⟨?_, rfl⟩
  rw [List.filter_eq_nil_iff]
  intro a ha
  simp [revoke_clears db rt rid "group" none p a ha]

/-- C6: adding a grant whose expiresAt lies in the past changes no
hasPermission decision, even when its active flag is true: every branch of
the decision filters records with `aclLive`. -/
theorem expired_grant_never_satisfies (db : DB) (now u : Nat) (rt : String)
    (rid : Nat) (p : Permission) (a : Acl) (t : Nat)
    (hexp : a.expiresAt = some t) (hpast : t ≤ now) :
    hasPermission { db with acls := a :: db.acls } now u rt rid p
      = hasPermission db now u rt rid p := by
  have h1 : expiresOk now a.expiresAt = false := by
    rw [hexp]
    simp [expiresOk]
    omega
  have hdead : aclLive now a = false := by
    simp [aclLive, h1]
  simp [hasPermission, userGroups, List.any_cons, hdead]

/-- Closed instance of C6: an active direct admin grant on document 5 that
expired at time 3 leaves the decision at time 10 identical to the decision
over the empty ledger. -/
theorem expired_grant_never_satisfies_witness :
    hasPermission
        ⟨[⟨"document", 5, "user", some 1, none, .admin, 9, 0, some 3, true⟩],
         [⟨1, "alice", []⟩]⟩ 10 1 "document" 5 .read
      = hasPermission ⟨[], [⟨1, "alice", []⟩]⟩ 10 1 "document" 5 .read :=
  expired_grant_never_satisfies ⟨[], [⟨1, "alice", []⟩]⟩ 10 1 "document" 5 .read
    ⟨"document", 5, "user", some 1, none, .admin, 9, 0, some 3, true⟩ 3 rfl
    (by decide)

/-- C7: an active, unexpired direct user grant of admin to principal u on a
resource makes hasPermission return true for every one of the four permission
values: the first branch of the decision looks for exactly such a record and
ignores the requested permission. -/
theorem admin_grant_grants_all (db : DB) (now u : Nat) (rt : String) (rid : Nat)
    (a : Acl) (ha : a ∈ db.acls) (hrt : a.resourceType = rt)
    (hrid : a.resourceId = rid) (hgt : a.granteeType = "user")
    (hgid : a.granteeId = some u) (hp : a.permission = Permission.admin)
    (hlive : aclLive now a = true) :
    ∀ p : Permission, hasPermission db now u rt rid p = true := by
  intro p
  have hadm : (db.acls.any fun b =>
      matchesRes rt rid b && b.granteeType == "user" && b.granteeId == some u &&
        b.permission == Permission.admin && aclLive now b) = true := by
    rw [List.any_eq_true]
    exact ⟨a, ha, by simp [matchesRes, hrt, hrid, hgt, hgid, hp, hlive]⟩
  simp [hasPermission, hadm]

/-- Closed instance of C7: with the single active admin grant to user 1 on
document 5, all four permission checks return true. -/
theorem admin_grant_grants_all_witness :
    hasPermission ⟨[⟨"document", 5, "user", some 1, none, .admin, 9, 0, none, true⟩],
        [⟨1, "alice", []⟩]⟩ 0 1 "document" 5 .read = true
    ∧ hasPermission ⟨[⟨"document", 5, "user", some 1, none, .admin, 9, 0, none, true⟩],
        [⟨1, "alice", []⟩]⟩ 0 1 "document" 5 .write = true
    ∧ hasPermission ⟨[⟨"document", 5, "user", some 1, none, .admin, 9, 0, none, true⟩],
        [⟨1, "alice", []⟩]⟩ 0 1 "document" 5 .delete = true
    ∧ hasPermission ⟨[⟨"document", 5, "user", some 1, none, .admin, 9, 0, none, true⟩],
        [⟨1, "alice", []⟩]⟩ 0 1 "document" 5 .admin = true :=
  ⟨admin_grant_grants_all _ 0 1 "document" 5
      ⟨"document", 5, "user", some 1, none, .admin, 9, 0, none, true⟩
      (by decide) rfl rfl rfl rfl rfl (by decide) .read,
   admin_grant_grants_all _ 0 1 "document" 5
      ⟨"document", 5, "user", some 1, none, .admin, 9, 0, none, true⟩
      (by decide) rfl rfl rfl rfl rfl (by decide) .write,
   admin_grant_grants_all _ 0 1 "document" 5
      ⟨"document", 5, "user", some 1, none, .admin, 9, 0, none, true⟩
      (by decide) rfl rfl rfl rfl rfl (by decide) .delete,
   admin_grant_grants_all _ 0 1 "document" 5
      ⟨"document", 5, "user", some 1, none, .admin, 9, 0, none, true⟩
      (by decide) rfl rfl rfl rfl rfl (by decide) .admin⟩

/-- C9: getResourcePermissions returns exactly the active, unexpired grant
records of the resource (a pure filter of the ledger — the model performs no
write), in store order; since the ledger is append-only with grantedAt set at
insertion time, a store that is chronological stays chronological in the
result, so the records come back ordered by grantedAt; each record is paired
with the resolution of its grantor in the user directory. -/
theorem getResourcePermissions_spec (db : DB) (now : Nat) (rt : String)
    (rid : Nat)
    (hsorted : db.acls.Pairwise fun a b => a.grantedAt ≤ b.grantedAt) :
    ((getResourcePermissions db now rt rid).map Prod.fst
        = db.acls.filter fun a => matchesRes rt rid a && aclLive now a)
    ∧ (getResourcePermissions db now rt rid).Pairwise
        (fun x y => x.1.grantedAt ≤ y.1.grantedAt)
    ∧ ∀ x ∈ getResourcePermissions db now rt rid,
        x.2 = findUser db.users x.1.grantedBy := by
  refine ⟨?_, ?_, ?_⟩
  · simp [getResourcePermissions, List.map_map, Function.comp_def]
  · have hf := hsorted.filter (fun a => matchesRes rt rid a && aclLive now a)
    simpa [getResourcePermissions, List.pairwise_map] using hf
  · intro x hx
    simp only [getResourcePermissions, List.mem_map] at hx
    obtain ⟨a, ha, rfl⟩ := hx
    rfl

/-- Closed instance of C9: two live grants on document 5 granted at times 1
and 2 come back in grantedAt order with the grantor resolved. -/
theorem getResourcePermissions_spec_witness :
    ((getResourcePermissions
        ⟨[⟨"document", 5, "user", some 1, none, .admin, 9, 1, none, true⟩,
          ⟨"document", 5, "public", none, some "public", .read, 9, 2, none, true⟩],
         [⟨9, "root", []⟩]⟩ 0 "document" 5).map Prod.fst
        = List.filter (fun a => matchesRes "document" 5 a && aclLive 0 a)
            [⟨"document", 5, "user", some 1, none, .admin, 9, 1, none, true⟩,
             ⟨"document", 5, "public", none, some "public", .read, 9, 2, none, true⟩])
    ∧ (getResourcePermissions
        ⟨[⟨"document", 5, "user", some 1, none, .admin, 9, 1, none, true⟩,
          ⟨"document", 5, "public", none, some "public", .read, 9, 2, none, true⟩],
         [⟨9, "root", []⟩]⟩ 0 "document" 5).Pairwise
        (fun x y => x.1.grantedAt ≤ y.1.grantedAt)
    ∧ ∀ x ∈ getResourcePermissions
        ⟨[⟨"document", 5, "user", some 1, none, .admin, 9, 1, none, true⟩,
          ⟨"document", 5, "public", none, some "public", .read, 9, 2, none, true⟩],
         [⟨9, "root", []⟩]⟩ 0 "document" 5,
        x.2 = findUser [⟨9, "root", []⟩] x.1.grantedBy :=
  getResourcePermissions_spec
    ⟨[⟨"document", 5, "user", some 1, none, .admin, 9, 1, none, true⟩,
      ⟨"document", 5, "public", none, some "public", .read, 9, 2, none, true⟩],
     [⟨9, "root", []⟩]⟩ 0 "document" 5 (by decide)

/-- The successful path of `grantPermission` as an equation: valid permission
string and no failing user lookup yield exactly one appended record. -/
theorem grant_ok_eq (db : DB) (now : Nat) (rt : String) (rid : Nat) (gt : String)
    (gid : Option Nat) (gname : Option String) (perm : String) (gb : Nat)
    (e : Option Nat) (p : Permission) (hp : parsePermission perm = some p)
    (hc : (gt == "user" && gid.isSome && (findUser db.users (gid.getD 0)).isNone) = false) :
    grantPermission db now rt rid gt gid gname perm gb e
      = ({ db with acls := db.acls ++ [mkGrant now rt rid gt gid gname p gb e] },
         .ok (mkGrant now rt rid gt gid gname p gb e)) := by
  unfold grantPermission
  simp only [hp]
  simp [hc]

/-- C8: every successful grant call appends one fresh record to the ledger and
modifies no existing record, and an immediately repeated identical call also
succeeds and appends a second record, so two successive identical grants
produce two records rather than merging with or updating the first. -/
theorem grant_always_inserts (db : DB) (t1 t2 : Nat) (rt : String) (rid : Nat)
    (gt : String) (gid : Option Nat) (gname : Option String) (perm : String)
    (gb : Nat) (e : Option Nat) (r1 : Acl)
    (h1 : (grantPermission db t1 rt rid gt gid gname perm gb e).2 = .ok r1) :
    (grantPermission db t1 rt rid gt gid gname perm gb e).1.acls = db.acls ++ [r1]
    ∧ ∃ r2 : Acl,
        (grantPermission (grantPermission db t1 rt rid gt gid gname perm gb e).1
            t2 rt rid gt gid gname perm gb e).2 = .ok r2
        ∧ (grantPermission (grantPermission db t1 rt rid gt gid gname perm gb e).1
            t2 rt rid gt gid gname perm gb e).1.acls = db.acls ++ [r1, r2] := by
  cases hp : parsePermission perm with
  | none =>
    exfalso
    unfold grantPermission at h1
    simp only [hp] at h1
    simp at h1
  | some p =>
    cases hc : (gt == "user" && gid.isSome && (findUser db.users (gid.getD 0)).isNone) with
    | true =>
      exfalso
      unfold grantPermission at h1
      simp only [hp] at h1
      simp [hc] at h1
    | false =>
      have e1 := grant_ok_eq db t1 rt rid gt gid gname perm gb e p hp hc
      have hr1 : mkGrant t1 rt rid gt gid gname p gb e = r1 := by
        rw [e1] at h1
        simpa using h1
      subst hr1
      have e2 := grant_ok_eq
        ({ db with acls := db.acls ++ [mkGrant t1 rt rid gt gid gname p gb e] })
        t2 rt rid gt gid gname perm gb e p hp hc
      refine ⟨by rw [e1], mkGrant t2 rt rid gt gid gname p gb e, ?_, ?_⟩
      · rw [e1, e2]
      · rw [e1, e2]
        simp

/-- Closed instance of C8: granting write to user 1 on document 5 twice (at
times 3 and 4) appends two records to the empty ledger. -/
theorem grant_always_inserts_witness :
    (grantPermission ⟨[], [⟨1, "alice", []⟩]⟩ 3 "document" 5 "user" (some 1)
        none "write" 1 none).1.acls
      = [] ++ [⟨"document", 5, "user", some 1, none, .write, 1, 3, none, true⟩]
    ∧ ∃ r2 : Acl,
        (grantPermission (grantPermission ⟨[], [⟨1, "alice", []⟩]⟩ 3 "document" 5
            "user" (some 1) none "write" 1 none).1 4 "document" 5 "user" (some 1)
            none "write" 1 none).2 = .ok r2
        ∧ (grantPermission (grantPermission ⟨[], [⟨1, "alice", []⟩]⟩ 3 "document" 5
            "user" (some 1) none "write" 1 none).1 4 "document" 5 "user" (some 1)
            none "write" 1 none).1.acls
          = [] ++ [⟨"document", 5, "user", some 1, none, .write, 1, 3, none, true⟩, r2] :=
  grant_always_inserts ⟨[], [⟨1, "alice", []⟩]⟩ 3 4 "document" 5 "user" (some 1)
    none "write" 1 none
    ⟨"document", 5, "user", some 1, none, .write, 1, 3, none, true⟩ (by rfl)

/-- C5 (amended): grant rejects an invalid permission string with a
ValidationError before any write (the store it returns is the one it was
given), and rejects a present-but-unresolvable user granteeId with a
NotFoundError, again without writing; it does not validate the
grantee-kind/field combination itself. -/
theorem grant_error_paths (db : DB) (now : Nat) (rt : String) (rid : Nat)
    (gt : String) (gid : Option Nat) (gname : Option String) (perm : String)
    (gb : Nat) (e : Option Nat) :
    (parsePermission perm = none →
        grantPermission db now rt rid gt gid gname perm gb e
          = (db, .error (.validationError perm)))
    ∧ ∀ p g, parsePermission perm = some p → gt = "user" → gid = some g →
        findUser db.users g = none →
        grantPermission db now rt rid gt gid gname perm gb e
          = (db, .error (.notFoundError g)) := by
  constructor
  · intro hp
    unfold grantPermission
    simp only [hp]
  · intro p g hp hgt hgid hu
    unfold grantPermission
    simp only [hp]
    subst hgt
    subst hgid
    simp [hu]

/-- Closed instance of C5 (amended): a bogus permission string and an
unresolvable user granteeId are both rejected with the store unchanged. -/
theorem grant_error_paths_witness :
    grantPermission ⟨[], []⟩ 0 "document" 5 "user" none none "bogus" 9 none
      = (⟨[], []⟩, .error (.validationError "bogus"))
    ∧ grantPermission ⟨[], []⟩ 0 "document" 5 "user" (some 3) none "read" 9 none
      = (⟨[], []⟩, .error (.notFoundError 3)) :=
  ⟨(grant_error_paths ⟨[], []⟩ 0 "document" 5 "user" none none "bogus" 9 none).1 rfl,
   (grant_error_paths ⟨[], []⟩ 0 "document" 5 "user" (some 3) none "read" 9 none).2
      .read 3 rfl rfl rfl rfl⟩

/-- C5 counterexample: granteeKind 'user' with no granteeId is not rejected —
the guard `granteeType === 'user' && granteeId` is false, so no validation
fires and a record with a null granteeId is durably written. -/
theorem grant_user_without_id_accepted :
    (grantPermission ⟨[], []⟩ 0 "document" 5 "user" none none "read" 9 none).2
      = .ok ⟨"document", 5, "user", none, none, .read, 9, 0, none, true⟩
    ∧ (grantPermission ⟨[], []⟩ 0 "document" 5 "user" none none "read" 9 none).1.acls
      = [⟨"document", 5, "user", none, none, .read, 9, 0, none, true⟩] := by
  constructor <;> rfl

/-- C1: evaluation at the failing input.  User 1 belongs to group "eng" and an
active, unexpired group grant of write on document 5 names "eng"; hasPermission
nevertheless denies read (the group branch compares the record's permission to
the requested one with plain equality and no closure), while it allows write
and denies admin. -/
theorem group_write_grant_read_denied :
    hasPermission ⟨[⟨"document", 5, "group", none, some "eng", .write, 9, 0, none, true⟩],
        [⟨1, "alice", ["eng"]⟩]⟩ 0 1 "document" 5 .read = false
    ∧ hasPermission ⟨[⟨"document", 5, "group", none, some "eng", .write, 9, 0, none, true⟩],
        [⟨1, "alice", ["eng"]⟩]⟩ 0 1 "document" 5 .write = true
    ∧ hasPermission ⟨[⟨"document", 5, "group", none, some "eng", .write, 9, 0, none, true⟩],
        [⟨1, "alice", ["eng"]⟩]⟩ 0 1 "document" 5 .admin = false := by
  refine ⟨?_, ?_, ?_⟩ <;> decide

/-- C2: evaluation at the failing inputs, showing both inclusions fail.  With
a single active direct read grant to user 1 on document 5,
getUserAccessibleResources for admin lists document 5 (the query keeps any
grant whose permission lies in getPermissionHierarchy(admin), i.e. any weaker
grant) although hasPermission for admin is false; conversely with a single
direct admin grant, hasPermission for read is true (admin override) but
getUserAccessibleResources for read is empty (getPermissionHierarchy(read) is
just [read]). -/
theorem accessible_disagrees_with_hasPermission :
    getUserAccessibleResources
        ⟨[⟨"document", 5, "user", some 1, none, .read, 9, 0, none, true⟩],
         [⟨1, "alice", []⟩]⟩ 0 1 "document" .admin = [5]
    ∧ hasPermission
        ⟨[⟨"document", 5, "user", some 1, none, .read, 9, 0, none, true⟩],
         [⟨1, "alice", []⟩]⟩ 0 1 "document" 5 .admin = false
    ∧ getUserAccessibleResources
        ⟨[⟨"document", 5, "user", some 1, none, .admin, 9, 0, none, true⟩],
         [⟨1, "alice", []⟩]⟩ 0 1 "document" .read = []
    ∧ hasPermission
        ⟨[⟨"document", 5, "user", some 1, none, .admin, 9, 0, none, true⟩],
         [⟨1, "alice", []⟩]⟩ 0 1 "document" 5 .read = true := by
  refine ⟨?_, ?_, ?_, ?_⟩ <;> decide

/-- C3: evaluation at the failing input.  Document 5 carries both an active
direct read grant to user 1 and an active public read grant; the two queries
hydrate two distinct ObjectId objects for the same resource id, the JavaScript
Set keeps both, and the result lists resource 5 twice. -/
theorem accessible_duplicates_not_collapsed :
    getUserAccessibleResources
        ⟨[⟨"document", 5, "user", some 1, none, .read, 9, 0, none, true⟩,
          ⟨"document", 5, "public", none, some "public", .read, 9, 1, none, true⟩],
         [⟨1, "alice", []⟩]⟩ 0 1 "document" .read = [5, 5] := by
  decide
